import Mathlib

set_option maxRecDepth 100000

/-!
Verification of the ABI event extraction and deduplication pipeline of
`borrower-behaviours-analytics` (`src/services/abi_service.py` and
`src/jobs/abi_events_job.py`).

The Python code manipulates JSON values produced by `json.loads` /
`json.JSONDecoder.raw_decode`, and persists them with `json.dump`.  We embed:

* a `Json` value type mirroring what `json.loads` can return (numbers are kept
  as their source literal text: no claim under scrutiny inspects a numeric
  value, and this avoids modelling Python float formatting);
* the JSON parser (`pyJsonLoads` for `json.loads`, `rawDecode` for
  `JSONDecoder.raw_decode`), including Python-specific behaviour: the
  whole-document parse skips only JSON whitespace, `NaN`/`Infinity`/
  `-Infinity` constants are accepted, objects collapse duplicate keys with
  dict semantics (first occurrence keeps its position, last value wins);
* the serializer used by `json.dump` (compact form for the temporary
  normalized file, `indent=4` form for the target file);
* the service functions of `ABIEventService` and the job functions of
  `ABIEventsJob`, with file I/O modelled by an explicit file-system map plus
  a trace of read/write effects, and Python exceptions modelled with
  `Except PyErr` (exception messages are abstracted to their kind).

Modelling notes (deliberate abstractions, none observable by the claims):
* lone surrogate `\uXXXX` escapes decode to the NUL character (Lean `Char`
  cannot hold surrogates); proper surrogate pairs are combined as in Python;
* `str.isspace` is modelled on ASCII whitespace only (Python also accepts
  Unicode spaces between concatenated top-level values);
* `str()` of a non-string event name keeps a number's literal text rather
  than re-formatting the float, and container/str reprs elide Python's
  escaping rules;
* a non-list value stored under `"event_abi"` is uniformly modelled as a
  `typeError` (Python raises an exception whose exact class depends on the
  value's shape).
-/

/-- JSON values as produced by Python's `json.loads`.  Object fields carry
dict semantics (keys are unique, insertion-ordered) via `objInsert`. -/
inductive Json where
  | null : Json
  | bool (b : Bool) : Json
  | num (lit : String) : Json
  | str (s : String) : Json
  | arr (items : List Json) : Json
  | obj (fields : List (String × Json)) : Json

/-- Dictionary lookup: first (unique) occurrence of the key. -/
def objGet : List (String × Json) → String → Option Json
  | [], _ => none
  | (k', v') :: rest, k => if k' = k then some v' else objGet rest k

/-- Python dict assignment `d[k] = v`: replace the value of an existing key in
place, otherwise append the new key at the end. -/
def objInsert : List (String × Json) → String → Json → List (String × Json)
  | [], k, v => [(k, v)]
  | (k', v') :: rest, k, v =>
    if k' = k then (k, v) :: rest else (k', v') :: objInsert rest k v

/-- Fold a parsed pair list into dict semantics (Python `dict(pairs)`). -/
def mkObjFields (pairs : List (String × Json)) : List (String × Json) :=
  pairs.foldl (fun acc kv => objInsert acc kv.1 kv.2) []

/-- Is the value a JSON/Python list? (`isinstance(v, list)`). -/
def Json.isArr : Json → Bool
  | .arr _ => true
  | _ => false

/-- Elements of an array value (`[]` for non-arrays; only applied to arrays). -/
def Json.arrItems : Json → List Json
  | .arr l => l
  | _ => []

/-- JSON whitespace, as skipped by Python's `json` scanner (`' \t\n\r'`). -/
def jsonWs (c : Char) : Bool :=
  c = ' ' || c = '\t' || c = '\n' || c = '\r'

/-- Python `str.isspace` restricted to ASCII (see modelling notes). -/
def pyIsSpace (c : Char) : Bool :=
  jsonWs c || c = '\x0b' || c = '\x0c'

/-- Drop leading JSON whitespace. -/
def skipWs : List Char → List Char
  | [] => []
  | c :: rest => if jsonWs c then skipWs rest else c :: rest

/-- Drop leading Python whitespace (the `content[idx].isspace()` loop). -/
def skipPySpace : List Char → List Char
  | [] => []
  | c :: rest => if pyIsSpace c then skipPySpace rest else c :: rest

/-- Value of a hexadecimal digit. -/
def hexDigitVal (c : Char) : Option Nat :=
  if '0' ≤ c ∧ c ≤ '9' then some (c.toNat - '0'.toNat)
  else if 'a' ≤ c ∧ c ≤ 'f' then some (c.toNat - 'a'.toNat + 10)
  else if 'A' ≤ c ∧ c ≤ 'F' then some (c.toNat - 'A'.toNat + 10)
  else none

/-- Four-hex-digit scalar of a `\uXXXX` escape. -/
def hex4 (a b c d : Char) : Option Nat :=
  match hexDigitVal a, hexDigitVal b, hexDigitVal c, hexDigitVal d with
  | some x, some y, some z, some w => some (((x * 16 + y) * 16 + z) * 16 + w)
  | _, _, _, _ => none

/-- Lookahead for the low half of a surrogate pair: a `\uXXXX` escape in the
range DC00–DFFF at the head of the input. -/
def lowSurrogateSplit : List Char → Option (Nat × List Char)
  | '\\' :: 'u' :: e :: f :: g :: h :: rest2 =>
    match hex4 e f g h with
    | some m => if 0xDC00 ≤ m ∧ m < 0xE000 then some (m, rest2) else none
    | none => none
  | _ => none

/-- Body of a JSON string (after the opening quote): returns the decoded
characters and the remainder after the closing quote.  Mirrors Python's
strict `scanstring`: raw control characters are rejected, escapes are the
eight short ones plus `\uXXXX` with surrogate-pair combination.  The fuel is
structural bookkeeping only; each step consumes at least one character, so
`length + 1` always suffices. -/
def parseStringF : Nat → List Char → Option (List Char × List Char)
  | 0, _ => none
  | _ + 1, [] => none
  | _ + 1, '"' :: rest => some ([], rest)
  | f + 1, '\\' :: esc :: rest =>
    if esc = '"' then (parseStringF f rest).map (fun p => ('"' :: p.1, p.2))
    else if esc = '\\' then (parseStringF f rest).map (fun p => ('\\' :: p.1, p.2))
    else if esc = '/' then (parseStringF f rest).map (fun p => ('/' :: p.1, p.2))
    else if esc = 'b' then (parseStringF f rest).map (fun p => ('\x08' :: p.1, p.2))
    else if esc = 'f' then (parseStringF f rest).map (fun p => ('\x0c' :: p.1, p.2))
    else if esc = 'n' then (parseStringF f rest).map (fun p => ('\n' :: p.1, p.2))
    else if esc = 'r' then (parseStringF f rest).map (fun p => ('\r' :: p.1, p.2))
    else if esc = 't' then (parseStringF f rest).map (fun p => ('\t' :: p.1, p.2))
    else if esc = 'u' then
      match rest with
      | a :: b :: c :: d :: rest1 =>
        match hex4 a b c d with
        | none => none
        | some n =>
          if 0xD800 ≤ n ∧ n < 0xDC00 then
            match lowSurrogateSplit rest1 with
            | some (m, rest2) =>
              (parseStringF f rest2).map (fun p =>
                (Char.ofNat (0x10000 + (n - 0xD800) * 0x400 + (m - 0xDC00)) :: p.1, p.2))
            | none => (parseStringF f rest1).map (fun p => (Char.ofNat n :: p.1, p.2))
          else (parseStringF f rest1).map (fun p => (Char.ofNat n :: p.1, p.2))
      | _ => none
    else none
  | f + 1, c :: rest =>
    if c.toNat < 0x20 then none
    else (parseStringF f rest).map (fun p => (c :: p.1, p.2))

/-- String body with adequate fuel. -/
def parseStringChars (s : List Char) : Option (List Char × List Char) :=
  parseStringF (s.length + 1) s

/-- Longest run of decimal digits. -/
def takeDigits : List Char → List Char × List Char
  | [] => ([], [])
  | c :: rest =>
    if '0' ≤ c ∧ c ≤ '9' then
      let p := takeDigits rest
      (c :: p.1, p.2)
    else ([], c :: rest)

/-- JSON number literal (Python's `NUMBER_RE`), maximal-munch.  Returns the
literal's characters and the remainder; the sign has already been split off
by the caller when present. -/
def parseNumberBody (s : List Char) : Option (List Char × List Char) :=
  -- integer part: 0 or [1-9][0-9]*
  match s with
  | [] => none
  | c :: rest =>
    if c = '0' ∨ ('1' ≤ c ∧ c ≤ '9') then
      let (intRest, r1) := if c = '0' then (([] : List Char), rest) else takeDigits rest
      let intPart := c :: intRest
      -- fraction: (\.[0-9]+)?
      let (fracPart, r2) :=
        match r1 with
        | '.' :: r =>
          match takeDigits r with
          | ([], _) => (([] : List Char), r1)
          | (ds, r') => ('.' :: ds, r')
        | _ => (([] : List Char), r1)
      -- exponent: ([eE][+-]?[0-9]+)?
      let (expPart, r3) :=
        match r2 with
        | e :: sgn :: r =>
          if (e = 'e' ∨ e = 'E') ∧ (sgn = '+' ∨ sgn = '-') then
            match takeDigits r with
            | ([], _) => (([] : List Char), r2)
            | (ds, r') => (e :: sgn :: ds, r')
          else if e = 'e' ∨ e = 'E' then
            match takeDigits (sgn :: r) with
            | ([], _) => (([] : List Char), r2)
            | (ds, r') => (e :: ds, r')
          else (([] : List Char), r2)
        | [e] =>
          -- a final lone 'e' never matches (needs at least one digit)
          (([] : List Char), [e])
        | [] => (([] : List Char), ([] : List Char))
      some (intPart ++ fracPart ++ expPart, r3)
    else none

mutual

/-- One JSON value starting exactly at the head of the input (Python's
`scan_once`: no leading whitespace is skipped).  Fuel-indexed for structural
termination; every caller supplies fuel exceeding the input length. -/
def parseValue : Nat → List Char → Option (Json × List Char)
  | 0, _ => none
  | _ + 1, [] => none
  | f + 1, c :: rest =>
    if c = '\x7b' then parseObjBody f (skipWs rest)
    else if c = '[' then parseArrBody f (skipWs rest)
    else if c = '"' then
      (parseStringChars rest).map (fun p => (.str (String.mk p.1), p.2))
    else if c = 't' then
      match rest with
      | 'r' :: 'u' :: 'e' :: r => some (.bool true, r)
      | _ => none
    else if c = 'f' then
      match rest with
      | 'a' :: 'l' :: 's' :: 'e' :: r => some (.bool false, r)
      | _ => none
    else if c = 'n' then
      match rest with
      | 'u' :: 'l' :: 'l' :: r => some (.null, r)
      | _ => none
    else if c = 'N' then
      match rest with
      | 'a' :: 'N' :: r => some (.num "NaN", r)
      | _ => none
    else if c = 'I' then
      match rest with
      | 'n' :: 'f' :: 'i' :: 'n' :: 'i' :: 't' :: 'y' :: r => some (.num "Infinity", r)
      | _ => none
    else if c = '-' then
      match rest with
      | 'I' :: 'n' :: 'f' :: 'i' :: 'n' :: 'i' :: 't' :: 'y' :: r =>
        some (.num "-Infinity", r)
      | _ =>
        (parseNumberBody rest).map (fun p => (.num (String.mk ('-' :: p.1)), p.2))
    else
      (parseNumberBody (c :: rest)).map (fun p => (.num (String.mk p.1), p.2))

/-- Array body, positioned after `[` with whitespace skipped. -/
def parseArrBody : Nat → List Char → Option (Json × List Char)
  | 0, _ => none
  | f + 1, s =>
    match s with
    | ']' :: r => some (.arr [], r)
    | _ =>
      match parseValue f s with
      | none => none
      | some (v, r1) =>
        match parseArrRest f (skipWs r1) with
        | some (vs, r2) => some (.arr (v :: vs), r2)
        | none => none

/-- Array continuation, positioned where `,` or `]` is expected. -/
def parseArrRest : Nat → List Char → Option (List Json × List Char)
  | 0, _ => none
  | f + 1, s =>
    match s with
    | ']' :: r => some ([], r)
    | ',' :: r =>
      match parseValue f (skipWs r) with
      | none => none
      | some (v, r1) =>
        match parseArrRest f (skipWs r1) with
        | some (vs, r2) => some (v :: vs, r2)
        | none => none
    | _ => none

/-- Object body, positioned after `\x7b` with whitespace skipped. -/
def parseObjBody : Nat → List Char → Option (Json × List Char)
  | 0, _ => none
  | f + 1, s =>
    match s with
    | '\x7d' :: r => some (.obj [], r)
    | '"' :: r =>
      match parseObjPairs f r with
      | some (pairs, r2) => some (.obj (mkObjFields pairs), r2)
      | none => none
    | _ => none

/-- Key/value pairs, positioned right after the opening quote of a key. -/
def parseObjPairs : Nat → List Char → Option (List (String × Json) × List Char)
  | 0, _ => none
  | f + 1, s =>
    match parseStringChars s with
    | none => none
    | some (key, r1) =>
      match skipWs r1 with
      | ':' :: r2 =>
        match parseValue f (skipWs r2) with
        | none => none
        | some (v, r3) =>
          match skipWs r3 with
          | '\x7d' :: r4 => some ([(String.mk key, v)], r4)
          | ',' :: r4 =>
            match skipWs r4 with
            | '"' :: r5 =>
              match parseObjPairs f r5 with
              | some (pairs, r6) => some ((String.mk key, v) :: pairs, r6)
              | none => none
            | _ => none
          | _ => none
      | _ => none

end

/-- `json.JSONDecoder.raw_decode` at the head of the input: one value, plus
the input remaining after it (the end index). -/
def rawDecode (s : List Char) : Option (Json × List Char) :=
  parseValue (s.length + 1) s

/-- `json.loads`: skip JSON whitespace, parse one value, require only JSON
whitespace to remain. -/
def loadsList (s : List Char) : Option Json :=
  let s1 := skipWs s
  match parseValue (s1.length + 1) s1 with
  | some (v, r) => if skipWs r = [] then some v else none
  | none => none

/-- `json.loads` on a Python string. -/
def pyJsonLoads (s : String) : Option Json :=
  loadsList s.data

mutual

/-- Computable structural size of a JSON value (fuel bound for the
serializer and `str()`; strictly larger than the nesting depth). -/
def jsonFuel : Json → Nat
  | .null => 1
  | .bool _ => 1
  | .num _ => 1
  | .str _ => 1
  | .arr l => 1 + jsonFuelList l
  | .obj f => 1 + jsonFuelFields f

/-- Size of a list of JSON values. -/
def jsonFuelList : List Json → Nat
  | [] => 0
  | j :: r => 1 + jsonFuel j + jsonFuelList r

/-- Size of an object's field list. -/
def jsonFuelFields : List (String × Json) → Nat
  | [] => 0
  | kv :: r => 1 + jsonFuel kv.2 + jsonFuelFields r

end

/-- String escaping of `json.dump(..., ensure_ascii=False)`: escape the quote,
the backslash and control characters; everything else verbatim. -/
def encodeJsonStringChars : List Char → List Char
  | [] => []
  | c :: rest =>
    (if c = '"' then ['\\', '"']
     else if c = '\\' then ['\\', '\\']
     else if c = '\x08' then ['\\', 'b']
     else if c = '\x0c' then ['\\', 'f']
     else if c = '\n' then ['\\', 'n']
     else if c = '\r' then ['\\', 'r']
     else if c = '\t' then ['\\', 't']
     else if c.toNat < 0x20 then
       ['\\', 'u', '0', '0',
        (if c.toNat / 16 = 1 then '1' else '0'),
        "0123456789abcdef".data.getD (c.toNat % 16) '0']
     else [c]) ++ encodeJsonStringChars rest

/-- A JSON string literal as written by `json.dump`. -/
def encodeJsonString (s : String) : String :=
  "\"" ++ String.mk (encodeJsonStringChars s.data) ++ "\""

/-- `indent`-many spaces times the nesting level. -/
def indentPad (indent level : Nat) : String :=
  String.mk (List.replicate (indent * level) ' ')

/-- Serializer of `json.dump(value, ..., ensure_ascii=False)`; `ind = none`
is the compact default (separators `", "` / `": "`, used for the temporary
normalized file), `ind = some 4` is `indent=4` (used for the target file).
Number literals are emitted verbatim (see modelling notes).  The fuel is
structural bookkeeping; `sizeOf` of the value always suffices. -/
def dumpJsonF : Nat → Option Nat → Nat → Json → String
  | 0, _, _, _ => ""
  | f + 1, ind, lvl, j =>
    match j with
    | .null => "null"
    | .bool true => "true"
    | .bool false => "false"
    | .num lit => lit
    | .str s => encodeJsonString s
    | .arr [] => "[]"
    | .arr l =>
      match ind with
      | none => "[" ++ String.intercalate ", " (l.map (dumpJsonF f none 0)) ++ "]"
      | some n =>
        "[\n" ++
          String.intercalate ",\n"
            (l.map (fun v => indentPad n (lvl + 1) ++ dumpJsonF f (some n) (lvl + 1) v)) ++
          "\n" ++ indentPad n lvl ++ "]"
    | .obj [] => "\x7b\x7d"
    | .obj flds =>
      match ind with
      | none =>
        "\x7b" ++
          String.intercalate ", "
            (flds.map (fun kv => encodeJsonString kv.1 ++ ": " ++ dumpJsonF f none 0 kv.2)) ++
          "\x7d"
      | some n =>
        "\x7b\n" ++
          String.intercalate ",\n"
            (flds.map (fun kv =>
              indentPad n (lvl + 1) ++ encodeJsonString kv.1 ++ ": " ++
                dumpJsonF f (some n) (lvl + 1) kv.2)) ++
          "\n" ++ indentPad n lvl ++ "\x7d"

/-- `json.dump(value, w, ensure_ascii=False)` (temporary normalized file). -/
def dumpCompact (j : Json) : String :=
  dumpJsonF (jsonFuel j) none 0 j

/-- `json.dump(value, w, indent=4, ensure_ascii=False)` (target file). -/
def dumpIndent4 (j : Json) : String :=
  dumpJsonF (jsonFuel j) (some 4) 0 j

/-- Kinds of Python exceptions the pipeline can raise; messages and positions
are abstracted away. -/
inductive PyErr where
  | jsonDecodeError : PyErr
  | fileNotFoundError : PyErr
  | attributeError : PyErr
  | typeError : PyErr
deriving DecidableEq, Repr

/-- Python `str()` on a JSON value (used only to format a non-string event
name into the signature f-string).  `asRepr` selects `repr()`, used inside
containers; quoting subtleties of `repr` are abstracted (see notes). -/
def pyStrF : Nat → Bool → Json → String
  | 0, _, _ => ""
  | _ + 1, false, .str s => s
  | _ + 1, true, .str s => "'" ++ s ++ "'"
  | _ + 1, _, .num lit => lit
  | _ + 1, _, .bool true => "True"
  | _ + 1, _, .bool false => "False"
  | _ + 1, _, .null => "None"
  | f + 1, _, .arr l =>
    "[" ++ String.intercalate ", " (l.map (pyStrF f true)) ++ "]"
  | f + 1, _, .obj flds =>
    "\x7b" ++
      String.intercalate ", "
        (flds.map (fun kv => "'" ++ kv.1 ++ "': " ++ pyStrF f true kv.2)) ++
      "\x7d"

/-- Python `str()` of a value (f-string interpolation). -/
def pyStr (j : Json) : String :=
  pyStrF (jsonFuel j) false j

/-- The raw `input_param.get("type", "")` projections of the `inputs` value,
as produced by `get_event_signature`'s `for input_param in inputs` loop over
a genuine list: non-dict elements raise `AttributeError`. -/
def collectTypeValsList : List Json → Except PyErr (List Json)
  | [] => .ok []
  | .obj flds :: rest =>
    match collectTypeValsList rest with
    | .ok tys => .ok ((objGet flds "type").getD (.str "") :: tys)
    | .error e => .error e
  | _ :: _ => .error .attributeError

/-- `for input_param in inputs: input_types.append(input_param.get("type",
""))` on an arbitrary `inputs` value.  An empty string or empty dict
iterates zero times; a non-empty one yields non-dict elements whose `.get`
raises `AttributeError`; non-iterable values raise `TypeError`. -/
def collectTypeVals : Json → Except PyErr (List Json)
  | .arr l => collectTypeValsList l
  | .str s => if s = "" then .ok [] else .error .attributeError
  | .obj [] => .ok []
  | .obj (_ :: _) => .error .attributeError
  | _ => .error .typeError

/-- Extract the underlying strings, or `TypeError` on a non-string. -/
def pyAllStrs : List Json → Except PyErr (List String)
  | [] => .ok []
  | .str s :: rest =>
    match pyAllStrs rest with
    | .ok strs => .ok (s :: strs)
    | .error e => .error e
  | _ :: _ => .error .typeError

/-- Python `','.join(values)`: every element must be a `str`, else
`TypeError`. -/
def pyJoinComma (vals : List Json) : Except PyErr String :=
  match pyAllStrs vals with
  | .ok strs => .ok (String.intercalate "," strs)
  | .error e => .error e

/-- `ABIEventService.get_event_signature`: `name = event.get("name", "")`,
`inputs = event.get("inputs", [])`, project each input's `type` (default
`""`), and format `f"{name}({','.join(input_types)})"`.  A non-dict event
raises `AttributeError` at the first `.get`. -/
def get_event_signature (event : Json) : Except PyErr String :=
  match event with
  | .obj flds =>
    let name := (objGet flds "name").getD (.str "")
    let inputs := (objGet flds "inputs").getD (.arr [])
    match collectTypeVals inputs with
    | .error e => .error e
    | .ok tys =>
      match pyJoinComma tys with
      | .error e => .error e
      | .ok joined => .ok (pyStr name ++ "(" ++ joined ++ ")")
  | _ => .error .attributeError

/-- Does `get_event_signature` return normally on this event? -/
def sigComputes (event : Json) : Bool :=
  match get_event_signature event with
  | .ok _ => true
  | .error _ => false

/-- Total signature function: the computed signature, with `""` standing in
for the (never used) exceptional case. -/
def sigD (event : Json) : String :=
  match get_event_signature event with
  | .ok s => s
  | .error _ => ""

/-- `item.get("type") == "event"` on a dict item. -/
def isEventTagged (flds : List (String × Json)) : Bool :=
  match objGet flds "type" with
  | some (.str t) => t = "event"
  | _ => false

/-- The `for item in abi_data` filter loop of `extract_events_from_abi`,
over a genuine list. -/
def extractEventsList : List Json → Except PyErr (List Json)
  | [] => .ok []
  | .obj flds :: rest =>
    match extractEventsList rest with
    | .ok evs => .ok (if isEventTagged flds then .obj flds :: evs else evs)
    | .error e => .error e
  | _ :: _ => .error .attributeError

/-- `ABIEventService.extract_events_from_abi`: keep the entries whose
`type` equals `"event"`, in order, verbatim.  Iterating a non-list mimics
Python: a dict yields its keys and a string its characters (each raising
`AttributeError` at `.get` unless the iteration is empty); other values are
not iterable (`TypeError`). -/
def extract_events_from_abi (abi_data : Json) : Except PyErr (List Json) :=
  match abi_data with
  | .arr items => extractEventsList items
  | .obj [] => .ok []
  | .obj (_ :: _) => .error .attributeError
  | .str s => if s = "" then .ok [] else .error .attributeError
  | _ => .error .typeError

/-- The `existing_signatures` set build-up of `merge_events_with_unique_check`
(a Python set, modelled as the insertion-ordered list of signatures; only
membership is ever consulted). -/
def collectSigs : List Json → Except PyErr (List String)
  | [] => .ok []
  | e :: rest =>
    match get_event_signature e with
    | .error err => .error err
    | .ok s =>
      match collectSigs rest with
      | .ok sigs => .ok (s :: sigs)
      | .error err => .error err

/-- The `for event in new_events` append loop of
`merge_events_with_unique_check`: skip an event whose signature is already
seen, otherwise append it and record its signature. -/
def mergeLoop (sigs : List String) (acc : List Json) :
    List Json → Except PyErr (List Json)
  | [] => .ok acc
  | e :: rest =>
    match get_event_signature e with
    | .error err => .error err
    | .ok s =>
      if sigs.contains s then mergeLoop sigs acc rest
      else mergeLoop (s :: sigs) (acc ++ [e]) rest

/-- `ABIEventService.merge_events_with_unique_check`: build the set of
existing signatures, copy the existing list, then append each new event
whose signature is not yet seen (updating the seen set as it goes). -/
def merge_events_with_unique_check (existing_events new_events : List Json) :
    Except PyErr (List Json) :=
  match collectSigs existing_events with
  | .error err => .error err
  | .ok sigs => mergeLoop sigs existing_events new_events

/-- The `added_count` the merge logs: how many of `new_events` get appended
(the merged length minus the existing length; `0` when the merge raises). -/
def merge_added_count (existing_events new_events : List Json) : Nat :=
  match merge_events_with_unique_check existing_events new_events with
  | .ok merged => merged.length - existing_events.length
  | .error _ => 0

/-- Outcome of `_normalize_adjacent_arrays_file`'s pure decision: keep the
original file, or materialize a merged flat array (which the job then writes
to a temporary file as compact JSON). -/
inductive NormalizedSource where
  | useOriginal : NormalizedSource
  | useNew (merged : List Json) : NormalizedSource

/-- Concatenate the elements of a list of array values (`merged.extend(v)`). -/
def flattenArrays : List Json → List Json
  | [] => []
  | v :: rest => v.arrItems ++ flattenArrays rest

/-- The `while True` streaming loop of `_normalize_adjacent_arrays_file`:
skip Python whitespace, stop at end of input, otherwise `raw_decode` one
value and continue after it; a decode failure discards everything
(`values = []`).  Fuel-indexed; each iteration consumes at least one
character, so `length + 1` always suffices. -/
def normScanLoop : Nat → List Char → List Json → List Json
  | 0, _, _ => []
  | f + 1, s, acc =>
    match skipPySpace s with
    | [] => acc
    | c :: rest =>
      match rawDecode (c :: rest) with
      | some (v, r) => normScanLoop f r (acc ++ [v])
      | none => []

/-- Pure content decision of `ABIEventsJob._normalize_adjacent_arrays_file`:
fast path if the whole text is one valid JSON value; otherwise stream-decode
top-level values and merge them when there are at least two and all are
arrays. -/
def normalizeContent (content : String) : NormalizedSource :=
  match loadsList content.data with
  | some _ => .useOriginal
  | none =>
    let values := normScanLoop (content.data.length + 1) content.data []
    if 2 ≤ values.length ∧ values.all Json.isArr then .useNew (flattenArrays values)
    else .useOriginal

/-- Spec-side (§4.1) description of the incremental decoding pass: the list
of top-level values decoded left to right, or `none` as soon as any decode
attempt fails. -/
def decodeStream : Nat → List Char → Option (List Json)
  | 0, _ => none
  | f + 1, s =>
    match skipPySpace s with
    | [] => some []
    | c :: rest =>
      match rawDecode (c :: rest) with
      | some (v, r) => (decodeStream f r).map (fun vs => v :: vs)
      | none => none

/-- Spec-side (§4.1) normalizer contract, stated with the two stages
separated: (fast path) a fully parsing document is used as is; (a) a decode
failure discards all decoded values; (b) two or more values, all arrays,
are concatenated in decode order; (c) anything else is used as is. -/
def normalizeSpec (content : String) : NormalizedSource :=
  if (loadsList content.data).isSome then .useOriginal
  else
    match decodeStream (content.data.length + 1) content.data with
    | none => .useOriginal
    | some vs =>
      if 2 ≤ vs.length ∧ vs.all Json.isArr then .useNew (flattenArrays vs)
      else .useOriginal

/-- `pathlib.Path(p).stem`: the final path component without its last
suffix (a leading dot or a trailing dot is not a suffix separator). -/
def pathStem (p : String) : String :=
  let name := (p.data.reverse.takeWhile (fun c => c ≠ '/')).reverse
  let k := (name.reverse.takeWhile (fun c => c ≠ '.')).length
  -- `name.length - k - 1` is the index of the last dot (when one exists);
  -- the suffix is split off only when that index `i` satisfies 0 < i < len-1
  if k = name.length then String.mk name
  else if 1 ≤ name.length - k - 1 ∧ 1 ≤ k then
    String.mk (name.take (name.length - k - 1))
  else String.mk name

/-- The fresh in-memory target document synthesized when the target file
does not exist (`load_target_file`'s `FileNotFoundError` handler). -/
def defaultTargetDoc (path : String) : Json :=
  .obj [("_id", .str (pathStem path)), ("addresses", .obj []), ("event_abi", .arr [])]

/-- The file system: an association of paths to text contents. -/
abbrev FS := List (String × String)

/-- Content at a path. -/
def fsLookup : FS → String → Option String
  | [], _ => none
  | (p, c) :: rest, q => if p = q then some c else fsLookup rest q

/-- Full overwrite of a path (replace in place or append). -/
def fsInsert : FS → String → String → FS
  | [], p, c => [(p, c)]
  | (p', c') :: rest, p, c =>
    if p' = p then (p, c) :: rest else (p', c') :: fsInsert rest p c

/-- One observable file-system effect: an attempted open-for-read or an
overwrite write of a path. -/
inductive Eff where
  | read (path : String) : Eff
  | write (path : String) : Eff
deriving DecidableEq, BEq, Repr

/-- `ABIEventsJob._normalize_adjacent_arrays_file`: read the source, decide
(`normalizeContent`), and on a merge write the flat array to the fresh
temporary path `tmpName` as compact JSON, returning the path to process.
Any internal error (including an unreadable source) is swallowed and the
original path returned. -/
def normalize_adjacent_arrays_file (fs : FS) (tmpName abi_file : String) :
    String × FS × List Eff :=
  match fsLookup fs abi_file with
  | none => (abi_file, fs, [.read abi_file])
  | some content =>
    match normalizeContent content with
    | .useOriginal => (abi_file, fs, [.read abi_file])
    | .useNew merged =>
      (tmpName, fsInsert fs tmpName (dumpCompact (.arr merged)),
       [.read abi_file, .write tmpName])

/-- `ABIEventService.load_abi_from_file`: read and `json.loads` the file;
a missing file or invalid JSON raises. -/
def load_abi_from_file (fs : FS) (path : String) : Except PyErr Json × List Eff :=
  (match fsLookup fs path with
   | none => .error .fileNotFoundError
   | some c =>
     match pyJsonLoads c with
     | some v => .ok v
     | none => .error .jsonDecodeError,
   [.read path])

/-- `ABIEventService.load_target_file`: like `load_abi_from_file`, but a
missing file synthesizes the fresh document instead of raising. -/
def load_target_file (fs : FS) (path : String) : Except PyErr Json × List Eff :=
  (match fsLookup fs path with
   | none => .ok (defaultTargetDoc path)
   | some c =>
     match pyJsonLoads c with
     | some v => .ok v
     | none => .error .jsonDecodeError,
   [.read path])

/-- `ABIEventService.save_events_to_file`: re-load the target document from
disk, reassign only its `event_abi` field, and overwrite the file with the
`indent=4` serialization.  Returns the updated file system. -/
def save_events_to_file (fs : FS) (target_file_path : String)
    (events : List Json) : Except PyErr FS × List Eff :=
  match load_target_file fs target_file_path with
  | (.error e, t) => (.error e, t)
  | (.ok file_data, t) =>
    match file_data with
    | .obj flds =>
      (.ok (fsInsert fs target_file_path
              (dumpIndent4 (.obj (objInsert flds "event_abi" (.arr events))))),
       t ++ [.write target_file_path])
    | _ => (.error .typeError, t)  -- item assignment on a non-dict raises

/-- `target_data.get("event_abi", [])` as consumed by the merge: the list of
existing events.  A non-dict document raises at `.get`; a non-list
`event_abi` value makes the merge raise (kind modelled uniformly, see
notes). -/
def getEventAbiList (doc : Json) : Except PyErr (List Json) :=
  match doc with
  | .obj flds =>
    match objGet flds "event_abi" with
    | none => .ok []
    | some (.arr l) => .ok l
    | some _ => .error .typeError
  | _ => .error .attributeError

/-- `ABIEventService.extract_and_save_events`: load the ABI, extract its
events, load the target, merge with uniqueness check, save. -/
def extract_and_save_events (fs : FS) (abi_file_path target_file_path : String) :
    Except PyErr FS × List Eff :=
  match load_abi_from_file fs abi_file_path with
  | (.error e, t1) => (.error e, t1)
  | (.ok abi_data, t1) =>
    match extract_events_from_abi abi_data with
    | .error e => (.error e, t1)
    | .ok new_events =>
      match load_target_file fs target_file_path with
      | (.error e, t2) => (.error e, t1 ++ t2)
      | (.ok target_data, t2) =>
        match getEventAbiList target_data with
        | .error e => (.error e, t1 ++ t2)
        | .ok existing_events =>
          match merge_events_with_unique_check existing_events new_events with
          | .error e => (.error e, t1 ++ t2)
          | .ok merged_events =>
            match save_events_to_file fs target_file_path merged_events with
            | (r, t3) => (r, t1 ++ t2 ++ t3)

/-- The summary dictionary of `get_events_summary`. -/
structure EventsSummary where
  total_events : Nat
  event_names : List Json
  unique_signatures : Nat

/-- Python `len()` of the `event_abi` value (lists, strings and dicts have a
length; other values raise `TypeError`). -/
def pyLen : Json → Except PyErr Nat
  | .arr l => .ok l.length
  | .str s => .ok s.length
  | .obj flds => .ok flds.length
  | _ => .error .typeError

/-- The items produced by `for event in events` (same iteration semantics as
in `extract_events_from_abi`). -/
def iterEvents : Json → Except PyErr (List Json)
  | .arr l => .ok l
  | .str s => if s = "" then .ok [] else .ok ((s.data.map (fun c => .str (String.mk [c]))))
  | .obj flds => .ok (flds.map (fun kv => .str kv.1))
  | _ => .error .typeError

/-- `event.get("name", "Unknown")` over the iterated events. -/
def summaryNames : List Json → Except PyErr (List Json)
  | [] => .ok []
  | .obj flds :: rest =>
    match summaryNames rest with
    | .ok names => .ok ((objGet flds "name").getD (.str "Unknown") :: names)
    | .error e => .error e
  | _ :: _ => .error .attributeError

/-- The signatures of the iterated events, for the `set(...)` count. -/
def summarySigs : List Json → Except PyErr (List String)
  | [] => .ok []
  | e :: rest =>
    match get_event_signature e with
    | .error err => .error err
    | .ok s =>
      match summarySigs rest with
      | .ok sigs => .ok (s :: sigs)
      | .error err => .error err

/-- The summary computed from a loaded target document: total count, the
`name` (default `"Unknown"`) of each event, and the number of distinct
signatures. -/
def get_events_summary_doc (doc : Json) : Except PyErr EventsSummary :=
  match doc with
  | .obj flds =>
    let events := (objGet flds "event_abi").getD (.arr [])
    match pyLen events with
    | .error e => .error e
    | .ok total =>
      match iterEvents events with
      | .error e => .error e
      | .ok items =>
        match summaryNames items with
        | .error e => .error e
        | .ok names =>
          match summarySigs items with
          | .error e => .error e
          | .ok sigs => .ok ⟨total, names, sigs.dedup.length⟩
  | _ => .error .attributeError

/-- `ABIEventService.get_events_summary`: load the target and summarize. -/
def get_events_summary (fs : FS) (file_path : String) :
    Except PyErr EventsSummary × List Eff :=
  match load_target_file fs file_path with
  | (.error e, t) => (.error e, t)
  | (.ok doc, t) => (get_events_summary_doc doc, t)

/-- The dictionary `ABIEventsJob.extract_events` returns: `success` plus
either the summary (success) or the stringified exception (failure), and
the two paths. -/
structure JobResult where
  success : Bool
  summary : Option EventsSummary
  error : Option PyErr
  abi_file : String
  target_file : String

/-- The `{"success": False, "error": str(e), ...}` failure dictionary. -/
def failResult (e : PyErr) (abi_file target_file : String) : JobResult :=
  ⟨false, none, some e, abi_file, target_file⟩

/-- `ABIEventsJob.extract_events`: normalize the source, then either force
(extract and overwrite) or merge (extract, merge, save), then summarize the
freshly persisted target.  Any raised exception is caught and converted to
a failure result; the file system at that point is kept (a write that
happened before a later failure persists).  `tmpName` stands for the fresh
temporary path `tempfile` would allocate. -/
def extract_events (fs : FS) (tmpName abi_file target_file : String)
    (force : Bool) : JobResult × FS × List Eff :=
  match normalize_adjacent_arrays_file fs tmpName abi_file with
  | (source_path, fs1, t1) =>
    if force then
      match load_abi_from_file fs1 source_path with
      | (.error e, t2) => (failResult e abi_file target_file, fs1, t1 ++ t2)
      | (.ok abi_data, t2) =>
        match extract_events_from_abi abi_data with
        | .error e => (failResult e abi_file target_file, fs1, t1 ++ t2)
        | .ok new_events =>
          match save_events_to_file fs1 target_file new_events with
          | (.error e, t3) => (failResult e abi_file target_file, fs1, t1 ++ t2 ++ t3)
          | (.ok fs2, t3) =>
            match get_events_summary fs2 target_file with
            | (.error e, t4) =>
              (failResult e abi_file target_file, fs2, t1 ++ t2 ++ t3 ++ t4)
            | (.ok summ, t4) =>
              (⟨true, some summ, none, abi_file, target_file⟩, fs2,
               t1 ++ t2 ++ t3 ++ t4)
    else
      match extract_and_save_events fs1 source_path target_file with
      | (.error e, t2) => (failResult e abi_file target_file, fs1, t1 ++ t2)
      | (.ok fs2, t2) =>
        match get_events_summary fs2 target_file with
        | (.error e, t3) => (failResult e abi_file target_file, fs2, t1 ++ t2 ++ t3)
        | (.ok summ, t3) =>
          (⟨true, some summ, none, abi_file, target_file⟩, fs2, t1 ++ t2 ++ t3)

/-- Spec-side (§4.2) description of the tail a merge appends: the incoming
events whose signature is neither among the up-front `seen` signatures nor
among those of earlier kept events (duplicates collapse to their first
occurrence), in their original order. -/
def specNewEvents (seen : List String) : List Json → List Json
  | [] => []
  | e :: rest =>
    if seen.contains (sigD e) then specNewEvents seen rest
    else e :: specNewEvents (sigD e :: seen) rest

/-- Sample event `A` (signature `A()`). -/
def evA : Json := .obj [("type", .str "event"), ("name", .str "A")]

/-- Sample event with the same signature as `evA` but a different payload. -/
def evA2 : Json := .obj [("type", .str "event"), ("name", .str "A"), ("anonymous", .bool true)]

/-- Sample event `B` (signature `B()`). -/
def evB : Json := .obj [("type", .str "event"), ("name", .str "B")]

/-- Sample event `C` (signature `C()`). -/
def evC : Json := .obj [("type", .str "event"), ("name", .str "C")]

/-- Concrete source text: a two-event ABI (events `A` and `B`). -/
def srcDupJson : String :=
  "[\x7b\"type\": \"event\", \"name\": \"A\"\x7d, \x7b\"type\": \"event\", \"name\": \"B\"\x7d]"

/-- Concrete source text: a one-event ABI (event `A`). -/
def srcOneEvent : String := "[\x7b\"type\": \"event\", \"name\": \"A\"\x7d]"

/-- Concrete source text: truncated, malformed beyond recovery. -/
def srcTrunc : String := "[\x7b\"type\":\"event\""

/-- Concrete target text holding events `A`, `B`, `C`. -/
def tgtThreeJson : String :=
  "\x7b\"_id\": \"t\", \"addresses\": \x7b\x7d, \"event_abi\": [\x7b\"type\": \"event\", \"name\": \"A\"\x7d, \x7b\"type\": \"event\", \"name\": \"B\"\x7d, \x7b\"type\": \"event\", \"name\": \"C\"\x7d]\x7d"

/-- The fields of the parsed three-event target document. -/
def tgtThreeFlds : List (String × Json) :=
  [("_id", .str "t"), ("addresses", .obj []), ("event_abi", .arr [evA, evB, evC])]

/-- Concrete target text holding only event `A`. -/
def tgtOneEvent : String :=
  "\x7b\"_id\": \"t\", \"addresses\": \x7b\x7d, \"event_abi\": [\x7b\"type\": \"event\", \"name\": \"A\"\x7d]\x7d"

/-- Concrete target text with an empty `event_abi`. -/
def tgtEmptyAbi : String :=
  "\x7b\"_id\": \"t\", \"addresses\": \x7b\x7d, \"event_abi\": []\x7d"

/-! ## Merge engine lemmas -/

/-- On an event whose signature computes, `get_event_signature` returns
exactly `sigD`. -/
theorem sig_eq_of_computes (e : Json) (h : sigComputes e = true) :
    get_event_signature e = .ok (sigD e) := by
  unfold sigComputes at h
  cases hq : get_event_signature e with
  | ok s => simp [sigD, hq]
  | error err => rw [hq] at h; cases h

/-- The existing-signature set is the signature list of the existing events. -/
theorem collectSigs_eq (E : List Json) (h : ∀ e ∈ E, sigComputes e = true) :
    collectSigs E = .ok (E.map sigD) := by
  induction E with
  | nil => rfl
  | cons e rest ih =>
    simp only [collectSigs, sig_eq_of_computes e (h e (List.mem_cons_self e rest)),
      ih (fun x hx => h x (List.mem_cons_of_mem e hx)), List.map_cons]

/-- The append loop produces exactly the accumulated list followed by the
spec-side new-event tail. -/
theorem mergeLoop_eq (I : List Json) (h : ∀ e ∈ I, sigComputes e = true) :
    ∀ sigs acc, mergeLoop sigs acc I = .ok (acc ++ specNewEvents sigs I) := by
  induction I with
  | nil => intro sigs acc; simp [mergeLoop, specNewEvents]
  | cons e rest ih =>
    intro sigs acc
    have hsig := sig_eq_of_computes e (h e (List.mem_cons_self e rest))
    have ihr := ih (fun x hx => h x (List.mem_cons_of_mem e hx))
    by_cases hc : sigs.contains (sigD e) = true
    · simp only [mergeLoop, hsig, hc, if_true, ihr, specNewEvents]
    · simp only [mergeLoop, hsig, hc, if_false, ihr, specNewEvents,
        Bool.false_eq_true, List.append_assoc, List.singleton_append]

/-- The merge, characterized: the existing events verbatim, followed by the
spec-side new-event tail seeded with the existing signatures. -/
theorem merge_characterization (E I : List Json)
    (hE : ∀ e ∈ E, sigComputes e = true) (hI : ∀ e ∈ I, sigComputes e = true) :
    merge_events_with_unique_check E I =
      .ok (E ++ specNewEvents (E.map sigD) I) := by
  unfold merge_events_with_unique_check
  rw [collectSigs_eq E hE]
  exact mergeLoop_eq I hI (E.map sigD) E

/-- Every kept new event comes from the incoming list. -/
theorem specNewEvents_subset (I : List Json) :
    ∀ seen, ∀ e ∈ specNewEvents seen I, e ∈ I := by
  induction I with
  | nil => intro seen e he; simp [specNewEvents] at he
  | cons x rest ih =>
    intro seen e he
    rw [specNewEvents] at he
    by_cases hc : seen.contains (sigD x) = true
    · rw [if_pos hc] at he
      exact List.mem_cons_of_mem x (ih seen e he)
    · rw [if_neg hc] at he
      rcases List.mem_cons.mp he with he | he
      · exact he ▸ List.mem_cons_self x rest
      · exact List.mem_cons_of_mem x (ih (sigD x :: seen) e he)

/-- Every incoming signature ends up covered: it was already seen, or it is
the signature of a kept new event. -/
theorem specNewEvents_covers (I : List Json) :
    ∀ seen, ∀ e ∈ I,
      sigD e ∈ seen ∨ sigD e ∈ (specNewEvents seen I).map sigD := by
  induction I with
  | nil => intro seen e he; cases he
  | cons x rest ih =>
    intro seen e he
    rw [specNewEvents]
    by_cases hc : seen.contains (sigD x) = true
    · rw [if_pos hc]
      rcases List.mem_cons.mp he with he | he
      · subst he; exact Or.inl (List.elem_iff.mp hc)
      · exact ih seen e he
    · rw [if_neg hc]
      rcases List.mem_cons.mp he with he | he
      · subst he; exact Or.inr (by simp)
      · rcases ih (sigD x :: seen) e he with h | h
        · rcases List.mem_cons.mp h with h | h
          · exact Or.inr (by simp [h])
          · exact Or.inl h
        · exact Or.inr (by simp [h])

/-- When every incoming signature is already seen, nothing is kept. -/
theorem specNewEvents_nil (I : List Json) :
    ∀ seen, (∀ e ∈ I, sigD e ∈ seen) → specNewEvents seen I = [] := by
  induction I with
  | nil => intro seen _; rfl
  | cons x rest ih =>
    intro seen h
    rw [specNewEvents,
      if_pos (List.elem_iff.mpr (h x (List.mem_cons_self x rest)))]
    exact ih seen (fun e he => h e (List.mem_cons_of_mem x he))

/-- The kept new events have pairwise distinct signatures, none of them
among the seen ones. -/
theorem specNewEvents_nodup (I : List Json) :
    ∀ seen, ((specNewEvents seen I).map sigD).Nodup ∧
      ∀ s ∈ (specNewEvents seen I).map sigD, s ∉ seen := by
  induction I with
  | nil => intro seen; simp [specNewEvents]
  | cons x rest ih =>
    intro seen
    rw [specNewEvents]
    by_cases hc : seen.contains (sigD x) = true
    · rw [if_pos hc]; exact ih seen
    · rw [if_neg hc]
      obtain ⟨hnd, hout⟩ := ih (sigD x :: seen)
      constructor
      · rw [List.map_cons, List.nodup_cons]
        exact ⟨fun hmem => (hout (sigD x) hmem) (List.mem_cons_self _ _), hnd⟩
      · intro s hs
        rcases List.mem_cons.mp hs with hs | hs
        · subst hs
          intro hmem
          exact hc (List.elem_iff.mpr hmem)
        · intro hmem
          exact hout s hs (List.mem_cons_of_mem _ hmem)

/-- C1: merge returns the existing events verbatim, in order, as the start
of the output, followed by exactly those incoming events whose signature is
neither among the existing signatures nor among those of events appended
earlier in the same call (duplicates inside the incoming list collapse to
their first occurrence), in the incoming order.  Hypotheses: every event's
signature computes (Python would otherwise raise inside the merge). -/
theorem merge_appends_unseen_in_order (E I : List Json)
    (hE : ∀ e ∈ E, sigComputes e = true) (hI : ∀ e ∈ I, sigComputes e = true) :
    merge_events_with_unique_check E I =
      .ok (E ++ specNewEvents (E.map sigD) I) :=
  merge_characterization E I hE hI

/-- Witness for C1 at concrete events: existing `[A]`, incoming
`[A-variant, B, B]` merge to `[A, B]` (the variant and the second `B` are
dropped). -/
theorem merge_appends_unseen_in_order_witness :
    (∀ e ∈ [evA], sigComputes e = true) ∧
    (∀ e ∈ [evA2, evB, evB], sigComputes e = true) ∧
    merge_events_with_unique_check [evA] [evA2, evB, evB] =
      .ok ([evA] ++ specNewEvents ([evA].map sigD) [evA2, evB, evB]) ∧
    [evA] ++ specNewEvents ([evA].map sigD) [evA2, evB, evB] = [evA, evB] :=
  ⟨by decide, by decide,
   merge_appends_unseen_in_order [evA] [evA2, evB, evB] (by decide) (by decide),
   by rfl⟩

/-- C3: the merge is idempotent — re-merging the same incoming events into
an already-merged result adds nothing and returns the merged result
unchanged.  Hypotheses: every event's signature computes. -/
theorem merge_idempotent (E I M : List Json)
    (hE : ∀ e ∈ E, sigComputes e = true) (hI : ∀ e ∈ I, sigComputes e = true)
    (hM : merge_events_with_unique_check E I = .ok M) :
    merge_events_with_unique_check M I = .ok M := by
  have hchar := merge_characterization E I hE hI
  rw [hM] at hchar
  injection hchar with hMeq
  have hMall : ∀ e ∈ M, sigComputes e = true := by
    intro e he
    rw [hMeq] at he
    rcases List.mem_append.mp he with h | h
    · exact hE e h
    · exact hI e (specNewEvents_subset I (E.map sigD) e h)
  rw [merge_characterization M I hMall hI]
  have hcov : ∀ e ∈ I, sigD e ∈ M.map sigD := by
    intro e he
    rw [hMeq, List.map_append]
    rcases specNewEvents_covers I (E.map sigD) e he with h | h
    · exact List.mem_append.mpr (Or.inl h)
    · exact List.mem_append.mpr (Or.inr h)
  rw [specNewEvents_nil I (M.map sigD) hcov, List.append_nil]

/-- Witness for C3 at concrete events: merging `[B, A-variant]` into `[A]`
gives `[A, B]`, and re-merging the same incoming list is the identity. -/
theorem merge_idempotent_witness :
    (∀ e ∈ [evA], sigComputes e = true) ∧
    (∀ e ∈ [evB, evA2], sigComputes e = true) ∧
    merge_events_with_unique_check [evA] [evB, evA2] = .ok [evA, evB] ∧
    merge_events_with_unique_check [evA, evB] [evB, evA2] = .ok [evA, evB] :=
  ⟨by decide, by decide, by rfl,
   merge_idempotent [evA] [evB, evA2] [evA, evB] (by decide) (by decide) (by rfl)⟩

/-- C4 counterexample: with no precondition on the existing events, the
claim fails — an existing list that already holds two events with equal
signatures is returned verbatim by a merge with empty incoming, and its
signature multiset has a repeated value. -/
theorem merge_dup_signatures_cex :
    merge_events_with_unique_check [evA, evA2] [] = .ok [evA, evA2] ∧
    sigD evA = sigD evA2 ∧
    ¬ (([evA, evA2] : List Json).map sigD).Nodup := by
  refine ⟨by rfl, by rfl, ?_⟩
  intro h
  simp [evA, evA2, sigD, get_event_signature, objGet, collectTypeVals,
    pyJoinComma, pyAllStrs, pyStr, pyStrF, jsonFuel] at h

/-- C4 amended: provided the existing events already have pairwise distinct
signatures (the invariant every pipeline-produced document satisfies), the
merged result has no two entries with equal signatures. -/
theorem merge_no_duplicate_signatures (E I M : List Json)
    (hE : ∀ e ∈ E, sigComputes e = true) (hI : ∀ e ∈ I, sigComputes e = true)
    (hnd : (E.map sigD).Nodup)
    (hM : merge_events_with_unique_check E I = .ok M) :
    (M.map sigD).Nodup := by
  have hchar := merge_characterization E I hE hI
  rw [hM] at hchar
  injection hchar with hMeq
  rw [hMeq, List.map_append]
  obtain ⟨hnew, hout⟩ := specNewEvents_nodup I (E.map sigD)
  exact List.Nodup.append hnd hnew (fun s hs hs' => hout s hs' hs)

/-- Witness for C4's amended statement at concrete events. -/
theorem merge_no_duplicate_signatures_witness :
    (∀ e ∈ [evA], sigComputes e = true) ∧
    (∀ e ∈ [evA2, evB], sigComputes e = true) ∧
    (([evA] : List Json).map sigD).Nodup ∧
    merge_events_with_unique_check [evA] [evA2, evB] = .ok [evA, evB] ∧
    (([evA, evB] : List Json).map sigD).Nodup :=
  ⟨by decide, by decide, by decide, by rfl,
   merge_no_duplicate_signatures [evA] [evA2, evB] [evA, evB]
     (by decide) (by decide) (by decide) (by rfl)⟩

/-! ## Signature lemmas -/

/-- Joining a list of genuine strings succeeds with the comma join. -/
theorem pyAllStrs_map_str (types : List String) :
    pyAllStrs (types.map Json.str) = .ok types := by
  induction types with
  | nil => rfl
  | cons t rest ih => simp only [List.map_cons, pyAllStrs, ih]

/-- Reduction of `get_event_signature` on a dict event (definitional). -/
theorem get_event_signature_obj (flds : List (String × Json)) :
    get_event_signature (.obj flds) =
      match collectTypeVals ((objGet flds "inputs").getD (.arr [])) with
      | .error e => .error e
      | .ok tys =>
        match pyJoinComma tys with
        | .error e => .error e
        | .ok joined =>
          .ok (pyStr ((objGet flds "name").getD (.str "")) ++ "(" ++ joined ++ ")") :=
  rfl

/-- C2: the signature is `name ++ "(" ++ comma-joined input types ++ ")"`
in input order; a missing `name` acts as `""` and missing `inputs` as `[]`
(so the fully anonymous degenerate event signs as `"()"` without raising);
and the result depends only on the (defaulted) `name` value and the ordered
`type` projections of the (defaulted) `inputs` value — every other field of
the event is ignored. -/
theorem event_signature_spec :
    (∀ (flds : List (String × Json)) (name : String) (types : List String),
      (objGet flds "name").getD (.str "") = .str name →
      collectTypeVals ((objGet flds "inputs").getD (.arr [])) =
        .ok (types.map Json.str) →
      get_event_signature (.obj flds) =
        .ok (name ++ "(" ++ String.intercalate "," types ++ ")")) ∧
    (∀ flds : List (String × Json),
      objGet flds "name" = none → objGet flds "inputs" = none →
      get_event_signature (.obj flds) = .ok "()") ∧
    (∀ f1 f2 : List (String × Json),
      (objGet f1 "name").getD (.str "") = (objGet f2 "name").getD (.str "") →
      collectTypeVals ((objGet f1 "inputs").getD (.arr [])) =
        collectTypeVals ((objGet f2 "inputs").getD (.arr [])) →
      get_event_signature (.obj f1) = get_event_signature (.obj f2)) := by
  refine ⟨?_, ?_, ?_⟩
  · intro flds name types hname htypes
    rw [get_event_signature_obj, hname, htypes]
    simp only [pyJoinComma, pyAllStrs_map_str]
    simp [pyStr, pyStrF, jsonFuel]
  · intro flds hname hinputs
    rw [get_event_signature_obj, hname, hinputs]
    rfl
  · intro f1 f2 hname htypes
    rw [get_event_signature_obj, get_event_signature_obj, hname, htypes]

/-- Witness for C2 at the concrete `Transfer(address,address,uint256)`
event, the fully anonymous degenerate event, and a pair of events differing
only in fields other than `name` and the input `type`s. -/
theorem event_signature_spec_witness :
    ((objGet [("name", Json.str "Transfer"),
        ("inputs", Json.arr [.obj [("type", .str "address")],
          .obj [("type", .str "address")], .obj [("type", .str "uint256")]])]
        "name").getD (.str "") = .str "Transfer" ∧
      collectTypeVals ((objGet [("name", Json.str "Transfer"),
        ("inputs", Json.arr [.obj [("type", .str "address")],
          .obj [("type", .str "address")], .obj [("type", .str "uint256")]])]
        "inputs").getD (.arr [])) =
        .ok (["address", "address", "uint256"].map Json.str) ∧
      get_event_signature (.obj [("name", Json.str "Transfer"),
        ("inputs", Json.arr [.obj [("type", .str "address")],
          .obj [("type", .str "address")], .obj [("type", .str "uint256")]])]) =
        .ok ("Transfer" ++ "(" ++
          String.intercalate "," ["address", "address", "uint256"] ++ ")")) ∧
    (objGet ([("anonymous", Json.bool true)]) "name" = none ∧
      objGet ([("anonymous", Json.bool true)]) "inputs" = none ∧
      get_event_signature (.obj [("anonymous", Json.bool true)]) = .ok "()") ∧
    get_event_signature (.obj [("name", Json.str "A"), ("x", .num "1")]) =
      get_event_signature (.obj [("name", Json.str "A"), ("y", .null)]) :=
  ⟨⟨by rfl, by rfl,
    event_signature_spec.1 _ "Transfer" ["address", "address", "uint256"]
      (by rfl) (by rfl)⟩,
   ⟨by rfl, by rfl, (event_signature_spec.2.1) _ (by rfl) (by rfl)⟩,
   (event_signature_spec.2.2) _ _ (by rfl) (by rfl)⟩

/-! ## Normalizer lemmas -/

/-- The source's streaming loop equals the spec-side decode stream: a clean
run yields the accumulated prefix followed by the decoded values, any decode
failure discards everything. -/
theorem normScanLoop_eq_decodeStream :
    ∀ (f : Nat) (s : List Char) (acc : List Json),
      normScanLoop f s acc =
        (match decodeStream f s with
         | some vs => acc ++ vs
         | none => []) := by
  intro f
  induction f with
  | zero => intro s acc; rfl
  | succ f ih =>
    intro s acc
    rw [normScanLoop, decodeStream]
    cases hs : skipPySpace s with
    | nil => simp
    | cons c rest =>
      dsimp only
      cases hr : rawDecode (c :: rest) with
      | none => simp [hr]
      | some p =>
        obtain ⟨v, r⟩ := p
        dsimp only
        rw [ih r (acc ++ [v])]
        cases decodeStream f r with
        | none => simp
        | some vs => simp

/-- C5: the source normalizer agrees everywhere with the spec's two-stage
description — fast path on a fully parsing document (whatever its shape),
otherwise incremental decoding where (a) any decode failure means "use
original", (b) two or more values, all arrays, merge into one flat array in
decode order, and (c) anything else means "use original". -/
theorem normalize_matches_spec (content : String) :
    normalizeContent content = normalizeSpec content := by
  unfold normalizeContent normalizeSpec
  cases hl : loadsList content.data with
  | some v => simp
  | none =>
    simp only [Option.isSome_none, Bool.false_eq_true, if_false]
    rw [normScanLoop_eq_decodeStream]
    cases hd : decodeStream (content.data.length + 1) content.data with
    | none => simp
    | some vs => simp

/-! ## Orchestration lemmas -/

/-- Fast path of the normalizer: a source whose whole content parses is
used as is, with a single read. -/
theorem normalize_fast_path (fs : FS) (tmp src content : String) (v : Json)
    (hL : fsLookup fs src = some content)
    (hP : pyJsonLoads content = some v) :
    normalize_adjacent_arrays_file fs tmp src = (src, fs, [.read src]) := by
  unfold normalize_adjacent_arrays_file
  rw [hL]
  dsimp only
  unfold normalizeContent
  rw [show loadsList content.data = some v from hP]

/-- An aborted normalization (whole parse fails, streaming decision keeps
the original) is also a single read. -/
theorem normalize_orig_path (fs : FS) (tmp src content : String)
    (hL : fsLookup fs src = some content)
    (hN : normalizeContent content = .useOriginal) :
    normalize_adjacent_arrays_file fs tmp src = (src, fs, [.read src]) := by
  unfold normalize_adjacent_arrays_file
  rw [hL]
  dsimp only
  rw [hN]

/-- Loading a parsable ABI file. -/
theorem load_abi_ok (fs : FS) (path content : String) (v : Json)
    (hL : fsLookup fs path = some content)
    (hP : pyJsonLoads content = some v) :
    load_abi_from_file fs path = (.ok v, [.read path]) := by
  unfold load_abi_from_file
  rw [hL]
  dsimp only
  rw [hP]

/-- Loading an unparsable ABI file raises the decode error. -/
theorem load_abi_decode_error (fs : FS) (path content : String)
    (hL : fsLookup fs path = some content)
    (hP : pyJsonLoads content = none) :
    load_abi_from_file fs path = (.error .jsonDecodeError, [.read path]) := by
  unfold load_abi_from_file
  rw [hL]
  dsimp only
  rw [hP]

/-- Loading a parsable target file. -/
theorem load_target_ok (fs : FS) (path content : String) (v : Json)
    (hL : fsLookup fs path = some content)
    (hP : pyJsonLoads content = some v) :
    load_target_file fs path = (.ok v, [.read path]) := by
  unfold load_target_file
  rw [hL]
  dsimp only
  rw [hP]

/-- Saving events over an existing parsable dict target: one read, one
write, only `event_abi` reassigned, `indent=4` serialization. -/
theorem save_events_ok (fs : FS) (tgt content : String)
    (flds : List (String × Json)) (events : List Json)
    (hL : fsLookup fs tgt = some content)
    (hP : pyJsonLoads content = some (.obj flds)) :
    save_events_to_file fs tgt events =
      (.ok (fsInsert fs tgt
         (dumpIndent4 (.obj (objInsert flds "event_abi" (.arr events))))),
       [.read tgt, .write tgt]) := by
  unfold save_events_to_file
  rw [load_target_ok fs tgt content (.obj flds) hL hP]
  rfl

/-- The full merge-mode service call on a well-formed source and target:
extract, merge, save; two reads of the target happen (one by the service,
one inside the save). -/
theorem extract_and_save_run (fs : FS) (src tgt srcContent tgtContent : String)
    (abiJson : Json) (I E : List Json) (flds : List (String × Json))
    (hsrcL : fsLookup fs src = some srcContent)
    (hsrcP : pyJsonLoads srcContent = some abiJson)
    (hx : extract_events_from_abi abiJson = .ok I)
    (htgtL : fsLookup fs tgt = some tgtContent)
    (htgtP : pyJsonLoads tgtContent = some (.obj flds))
    (hea : objGet flds "event_abi" = some (.arr E))
    (hE : ∀ e ∈ E, sigComputes e = true) (hI : ∀ e ∈ I, sigComputes e = true) :
    extract_and_save_events fs src tgt =
      (.ok (fsInsert fs tgt (dumpIndent4 (.obj (objInsert flds "event_abi"
         (.arr (E ++ specNewEvents (E.map sigD) I)))))),
       [.read src, .read tgt, .read tgt, .write tgt]) := by
  unfold extract_and_save_events
  rw [load_abi_ok fs src srcContent abiJson hsrcL hsrcP]
  dsimp only
  rw [hx]
  dsimp only
  rw [load_target_ok fs tgt tgtContent (.obj flds) htgtL htgtP]
  dsimp only
  rw [show getEventAbiList (.obj flds) = .ok E by simp [getEventAbiList, hea]]
  dsimp only
  rw [merge_characterization E I hE hI]
  dsimp only
  rw [save_events_ok fs tgt tgtContent flds _ htgtL htgtP]
  rfl

/-- The trace of a target load is always exactly one read attempt. -/
theorem load_target_file_trace (fs : FS) (p : String) :
    (load_target_file fs p).2 = [.read p] := rfl

/-- The trace of a summary is always exactly one read attempt. -/
theorem get_events_summary_trace (fs : FS) (p : String) :
    (get_events_summary fs p).2 = [.read p] := by
  unfold get_events_summary
  cases hl : load_target_file fs p with
  | mk a t =>
    have ht : t = [.read p] := by
      have h2 := load_target_file_trace fs p
      rw [hl] at h2
      exact h2
    subst ht
    cases a <;> rfl

/-- A successful fast-path merge-mode job run, in full: the final file
system, the effect trace, and the result as a function of the summary read
back from the freshly written target. -/
theorem extract_events_merge_run (fs : FS)
    (tmp src tgt srcContent tgtContent : String)
    (abiJson : Json) (I E : List Json) (flds : List (String × Json))
    (hsrcL : fsLookup fs src = some srcContent)
    (hsrcP : pyJsonLoads srcContent = some abiJson)
    (hx : extract_events_from_abi abiJson = .ok I)
    (htgtL : fsLookup fs tgt = some tgtContent)
    (htgtP : pyJsonLoads tgtContent = some (.obj flds))
    (hea : objGet flds "event_abi" = some (.arr E))
    (hE : ∀ e ∈ E, sigComputes e = true) (hI : ∀ e ∈ I, sigComputes e = true) :
    extract_events fs tmp src tgt false =
      ((match (get_events_summary (fsInsert fs tgt (dumpIndent4 (.obj
            (objInsert flds "event_abi"
              (.arr (E ++ specNewEvents (E.map sigD) I)))))) tgt).1 with
        | .ok summ => (⟨true, some summ, none, src, tgt⟩ : JobResult)
        | .error e => failResult e src tgt),
       fsInsert fs tgt (dumpIndent4 (.obj (objInsert flds "event_abi"
         (.arr (E ++ specNewEvents (E.map sigD) I))))),
       [.read src, .read src, .read tgt, .read tgt, .write tgt, .read tgt]) := by
  unfold extract_events
  rw [normalize_fast_path fs tmp src srcContent abiJson hsrcL hsrcP]
  dsimp only
  rw [extract_and_save_run fs src tgt srcContent tgtContent abiJson I E flds
    hsrcL hsrcP hx htgtL htgtP hea hE hI]
  dsimp only
  rcases hs : get_events_summary (fsInsert fs tgt (dumpIndent4 (.obj
      (objInsert flds "event_abi"
        (.arr (E ++ specNewEvents (E.map sigD) I)))))) tgt with ⟨r4, t4⟩
  have ht : t4 = [.read tgt] := by
    have h2 := get_events_summary_trace (fsInsert fs tgt (dumpIndent4 (.obj
      (objInsert flds "event_abi"
        (.arr (E ++ specNewEvents (E.map sigD) I)))))) tgt
    rw [hs] at h2
    exact h2
  subst ht
  cases r4 <;> rfl

/-- A successful fast-path force-mode job run, in full: extraction result
written verbatim over `event_abi`, no merge, no uniqueness check. -/
theorem extract_events_force_run (fs : FS)
    (tmp src tgt srcContent tgtContent : String)
    (abiJson : Json) (I : List Json) (flds : List (String × Json))
    (hsrcL : fsLookup fs src = some srcContent)
    (hsrcP : pyJsonLoads srcContent = some abiJson)
    (hx : extract_events_from_abi abiJson = .ok I)
    (htgtL : fsLookup fs tgt = some tgtContent)
    (htgtP : pyJsonLoads tgtContent = some (.obj flds)) :
    extract_events fs tmp src tgt true =
      ((match (get_events_summary (fsInsert fs tgt (dumpIndent4 (.obj
            (objInsert flds "event_abi" (.arr I))))) tgt).1 with
        | .ok summ => (⟨true, some summ, none, src, tgt⟩ : JobResult)
        | .error e => failResult e src tgt),
       fsInsert fs tgt (dumpIndent4 (.obj (objInsert flds "event_abi" (.arr I)))),
       [.read src, .read src, .read tgt, .write tgt, .read tgt]) := by
  unfold extract_events
  rw [normalize_fast_path fs tmp src srcContent abiJson hsrcL hsrcP]
  dsimp only
  rw [load_abi_ok fs src srcContent abiJson hsrcL hsrcP]
  dsimp only
  rw [hx]
  dsimp only
  rw [save_events_ok fs tgt tgtContent flds I htgtL htgtP]
  dsimp only
  rcases hs : get_events_summary (fsInsert fs tgt (dumpIndent4 (.obj
      (objInsert flds "event_abi" (.arr I))))) tgt with ⟨r4, t4⟩
  have ht : t4 = [.read tgt] := by
    have h2 := get_events_summary_trace (fsInsert fs tgt (dumpIndent4 (.obj
      (objInsert flds "event_abi" (.arr I))))) tgt
    rw [hs] at h2
    exact h2
  subst ht
  cases r4 <;> rfl

/-- Assigning a key makes it hold the assigned value. -/
theorem objGet_objInsert_self (flds : List (String × Json)) (k : String) (v : Json) :
    objGet (objInsert flds k v) k = some v := by
  induction flds with
  | nil => simp [objInsert, objGet]
  | cons kv rest ih =>
    obtain ⟨k', v'⟩ := kv
    by_cases h : k' = k
    · simp [objInsert, objGet, h]
    · simp [objInsert, objGet, h, ih]

/-- Assigning a key leaves every other key's value unchanged. -/
theorem objGet_objInsert_ne (flds : List (String × Json)) (k : String) (v : Json)
    (q : String) (h : q ≠ k) :
    objGet (objInsert flds k v) q = objGet flds q := by
  have h' : ¬ k = q := fun hh => h hh.symm
  induction flds with
  | nil => simp [objInsert, objGet, h']
  | cons kv rest ih =>
    obtain ⟨k', v'⟩ := kv
    by_cases hk : k' = k
    · subst hk
      simp [objInsert, objGet, h']
    · by_cases hq : k' = q
      · simp [objInsert, objGet, hk, hq, h]
      · simp [objInsert, objGet, hk, hq, ih]

/-- Overwriting a path makes it hold the written content. -/
theorem fsLookup_fsInsert_self (fs : FS) (p c : String) :
    fsLookup (fsInsert fs p c) p = some c := by
  induction fs with
  | nil => simp [fsInsert, fsLookup]
  | cons qc rest ih =>
    obtain ⟨q, c'⟩ := qc
    by_cases h : q = p
    · simp [fsInsert, fsLookup, h]
    · simp [fsInsert, fsLookup, h, ih]

/-- C6: with a target whose `event_abi` holds existing events `E` and a
source whose extracted events `I` all have signatures already present among
`E`'s, force mode rewrites the target with `event_abi` exactly `I` (full
replacement — with the claim's sizes, 2 events), while merge mode rewrites
it with `event_abi` exactly `E` (no additions — 3 events). -/
theorem force_replaces_merge_appends (fs : FS)
    (tmp src tgt srcContent tgtContent : String)
    (abiJson : Json) (I E : List Json) (flds : List (String × Json))
    (hsrcL : fsLookup fs src = some srcContent)
    (hsrcP : pyJsonLoads srcContent = some abiJson)
    (hx : extract_events_from_abi abiJson = .ok I)
    (htgtL : fsLookup fs tgt = some tgtContent)
    (htgtP : pyJsonLoads tgtContent = some (.obj flds))
    (hea : objGet flds "event_abi" = some (.arr E))
    (hE : ∀ e ∈ E, sigComputes e = true) (hI : ∀ e ∈ I, sigComputes e = true)
    (hElen : E.length = 3) (hIlen : I.length = 2)
    (hdup : ∀ e ∈ I, sigD e ∈ E.map sigD) :
    (fsLookup (extract_events fs tmp src tgt true).2.1 tgt =
       some (dumpIndent4 (.obj (objInsert flds "event_abi" (.arr I)))) ∧
     objGet (objInsert flds "event_abi" (.arr I)) "event_abi" =
       some (.arr I) ∧
     I.length = 2) ∧
    (fsLookup (extract_events fs tmp src tgt false).2.1 tgt =
       some (dumpIndent4 (.obj (objInsert flds "event_abi" (.arr E)))) ∧
     objGet (objInsert flds "event_abi" (.arr E)) "event_abi" =
       some (.arr E) ∧
     E.length = 3) := by
  have hnil : specNewEvents (E.map sigD) I = [] := specNewEvents_nil I _ hdup
  constructor
  · rw [extract_events_force_run fs tmp src tgt srcContent tgtContent abiJson
      I flds hsrcL hsrcP hx htgtL htgtP]
    exact ⟨fsLookup_fsInsert_self fs tgt _, objGet_objInsert_self flds _ _, hIlen⟩
  · rw [extract_events_merge_run fs tmp src tgt srcContent tgtContent abiJson
      I E flds hsrcL hsrcP hx htgtL htgtP hea hE hI, hnil, List.append_nil]
    exact ⟨fsLookup_fsInsert_self fs tgt _, objGet_objInsert_self flds _ _, hElen⟩

/-- Witness for C6 at the concrete three-event target and two-duplicate
source: force mode leaves `event_abi = [A, B]` (length 2), merge mode
leaves `event_abi = [A, B, C]` (length 3). -/
theorem force_replaces_merge_appends_witness :
    pyJsonLoads srcDupJson = some (.arr [evA, evB]) ∧
    pyJsonLoads tgtThreeJson = some (.obj tgtThreeFlds) ∧
    (∀ e ∈ [evA, evB], sigD e ∈ ([evA, evB, evC].map sigD)) ∧
    ((fsLookup (extract_events [("s.json", srcDupJson), ("t.json", tgtThreeJson)]
          "tmp.json" "s.json" "t.json" true).2.1 "t.json" =
        some (dumpIndent4 (.obj (objInsert tgtThreeFlds "event_abi"
          (.arr [evA, evB])))) ∧
      objGet (objInsert tgtThreeFlds "event_abi" (.arr [evA, evB])) "event_abi" =
        some (.arr [evA, evB]) ∧
      ([evA, evB] : List Json).length = 2) ∧
     (fsLookup (extract_events [("s.json", srcDupJson), ("t.json", tgtThreeJson)]
          "tmp.json" "s.json" "t.json" false).2.1 "t.json" =
        some (dumpIndent4 (.obj (objInsert tgtThreeFlds "event_abi"
          (.arr [evA, evB, evC])))) ∧
      objGet (objInsert tgtThreeFlds "event_abi" (.arr [evA, evB, evC]))
          "event_abi" = some (.arr [evA, evB, evC]) ∧
      ([evA, evB, evC] : List Json).length = 3)) :=
  ⟨by rfl, by rfl, by decide,
   force_replaces_merge_appends
     [("s.json", srcDupJson), ("t.json", tgtThreeJson)]
     "tmp.json" "s.json" "t.json" srcDupJson tgtThreeJson
     (.arr [evA, evB]) [evA, evB] [evA, evB, evC] tgtThreeFlds
     (by rfl) (by rfl) (by rfl) (by rfl) (by rfl) (by rfl)
     (by decide) (by decide) (by rfl) (by rfl) (by decide)⟩

/-- C7: a source malformed beyond recovery (whole parse fails and the
normalizer keeps the original) makes the job fail with a decode error in
either mode, and leaves the whole file system — in particular the target
file — exactly as it was. -/
theorem malformed_source_fails_untouched (fs : FS)
    (tmp src tgt content : String) (force : Bool)
    (hL : fsLookup fs src = some content)
    (hP : pyJsonLoads content = none)
    (hN : normalizeContent content = .useOriginal) :
    (extract_events fs tmp src tgt force).1.success = false ∧
    (extract_events fs tmp src tgt force).1.error = some .jsonDecodeError ∧
    (extract_events fs tmp src tgt force).2.1 = fs := by
  unfold extract_events
  rw [normalize_orig_path fs tmp src content hL hN]
  dsimp only
  cases force with
  | true =>
    rw [load_abi_decode_error fs src content hL hP]
    exact ⟨rfl, rfl, rfl⟩
  | false =>
    unfold extract_and_save_events
    rw [load_abi_decode_error fs src content hL hP]
    exact ⟨rfl, rfl, rfl⟩

/-- Witness for C7 at the concrete truncated source `[\x7b"type":"event"`,
with a target file present, in both modes. -/
theorem malformed_source_fails_untouched_witness :
    pyJsonLoads srcTrunc = none ∧
    normalizeContent srcTrunc = .useOriginal ∧
    ((extract_events [("s.json", srcTrunc), ("t.json", tgtOneEvent)]
        "tmp.json" "s.json" "t.json" false).1.success = false ∧
     (extract_events [("s.json", srcTrunc), ("t.json", tgtOneEvent)]
        "tmp.json" "s.json" "t.json" false).1.error = some .jsonDecodeError ∧
     (extract_events [("s.json", srcTrunc), ("t.json", tgtOneEvent)]
        "tmp.json" "s.json" "t.json" false).2.1 =
       [("s.json", srcTrunc), ("t.json", tgtOneEvent)]) ∧
    ((extract_events [("s.json", srcTrunc), ("t.json", tgtOneEvent)]
        "tmp.json" "s.json" "t.json" true).1.success = false ∧
     (extract_events [("s.json", srcTrunc), ("t.json", tgtOneEvent)]
        "tmp.json" "s.json" "t.json" true).1.error = some .jsonDecodeError ∧
     (extract_events [("s.json", srcTrunc), ("t.json", tgtOneEvent)]
        "tmp.json" "s.json" "t.json" true).2.1 =
       [("s.json", srcTrunc), ("t.json", tgtOneEvent)]) :=
  ⟨by rfl, by rfl,
   malformed_source_fails_untouched
     [("s.json", srcTrunc), ("t.json", tgtOneEvent)]
     "tmp.json" "s.json" "t.json" srcTrunc false (by rfl) (by rfl) (by rfl),
   malformed_source_fails_untouched
     [("s.json", srcTrunc), ("t.json", tgtOneEvent)]
     "tmp.json" "s.json" "t.json" srcTrunc true (by rfl) (by rfl) (by rfl)⟩

/-- C8 counterexample: two merge-mode invocations over the same source —
one against a target already holding the event (0 newly added), one against
an empty target (1 newly added) — return *identical* results, so the
returned result cannot contain the count of newly added events.  The result
dictionary holds only `success`, `summary`, and the two paths; the
`added_count` of the merge is only logged. -/
theorem result_lacks_added_count_cex :
    pyJsonLoads tgtOneEvent =
      some (.obj [("_id", .str "t"), ("addresses", .obj []),
                  ("event_abi", .arr [evA])]) ∧
    pyJsonLoads tgtEmptyAbi =
      some (.obj [("_id", .str "t"), ("addresses", .obj []),
                  ("event_abi", .arr [])]) ∧
    pyJsonLoads srcOneEvent = some (.arr [evA]) ∧
    extract_events_from_abi (.arr [evA]) = .ok [evA] ∧
    merge_added_count [evA] [evA] = 0 ∧
    merge_added_count [] [evA] = 1 ∧
    (extract_events [("s.json", srcOneEvent), ("t.json", tgtOneEvent)]
        "tmp.json" "s.json" "t.json" false).1 =
      (extract_events [("s.json", srcOneEvent), ("t.json", tgtEmptyAbi)]
        "tmp.json" "s.json" "t.json" false).1 :=
  ⟨rfl, rfl, rfl, rfl, rfl, rfl, rfl⟩

/-- C8 amended: the result of a successful invocation carries the success
flag, the summary read back from the freshly persisted target, and the two
paths — and nothing else; in particular no count of newly added (merge
mode) or replaced (force mode) events. -/
theorem result_carries_summary_and_paths_only (fs : FS)
    (tmp src tgt srcContent tgtContent : String)
    (abiJson : Json) (I E : List Json) (flds : List (String × Json))
    (s1 s2 : EventsSummary)
    (hsrcL : fsLookup fs src = some srcContent)
    (hsrcP : pyJsonLoads srcContent = some abiJson)
    (hx : extract_events_from_abi abiJson = .ok I)
    (htgtL : fsLookup fs tgt = some tgtContent)
    (htgtP : pyJsonLoads tgtContent = some (.obj flds))
    (hea : objGet flds "event_abi" = some (.arr E))
    (hE : ∀ e ∈ E, sigComputes e = true) (hI : ∀ e ∈ I, sigComputes e = true)
    (hs1 : (get_events_summary (fsInsert fs tgt (dumpIndent4 (.obj
        (objInsert flds "event_abi"
          (.arr (E ++ specNewEvents (E.map sigD) I)))))) tgt).1 = .ok s1)
    (hs2 : (get_events_summary (fsInsert fs tgt (dumpIndent4 (.obj
        (objInsert flds "event_abi" (.arr I))))) tgt).1 = .ok s2) :
    (extract_events fs tmp src tgt false).1 = ⟨true, some s1, none, src, tgt⟩ ∧
    (extract_events fs tmp src tgt true).1 = ⟨true, some s2, none, src, tgt⟩ := by
  constructor
  · rw [extract_events_merge_run fs tmp src tgt srcContent tgtContent abiJson
      I E flds hsrcL hsrcP hx htgtL htgtP hea hE hI]
    dsimp only
    rw [hs1]
  · rw [extract_events_force_run fs tmp src tgt srcContent tgtContent abiJson
      I flds hsrcL hsrcP hx htgtL htgtP]
    dsimp only
    rw [hs2]

/-- Witness for C8's amended statement at the concrete one-event scenario. -/
theorem result_carries_summary_and_paths_only_witness :
    (extract_events [("s.json", srcOneEvent), ("t.json", tgtEmptyAbi)]
        "tmp.json" "s.json" "t.json" false).1 =
      ⟨true, some ⟨1, [.str "A"], 1⟩, none, "s.json", "t.json"⟩ ∧
    (extract_events [("s.json", srcOneEvent), ("t.json", tgtEmptyAbi)]
        "tmp.json" "s.json" "t.json" true).1 =
      ⟨true, some ⟨1, [.str "A"], 1⟩, none, "s.json", "t.json"⟩ :=
  result_carries_summary_and_paths_only
    [("s.json", srcOneEvent), ("t.json", tgtEmptyAbi)]
    "tmp.json" "s.json" "t.json" srcOneEvent tgtEmptyAbi
    (.arr [evA]) [evA] []
    [("_id", .str "t"), ("addresses", .obj []), ("event_abi", .arr [])]
    ⟨1, [.str "A"], 1⟩ ⟨1, [.str "A"], 1⟩
    (by rfl) (by rfl) (by rfl) (by rfl) (by rfl) (by rfl)
    (by decide) (by decide) (by rfl) (by rfl)

/-- C9 counterexample: a concrete successful merge-mode invocation performs
*two* read attempts of the source (one by the normalizer, one by the
loader) and *three* of the target (service load, save's re-load, summary),
not the claimed single read of each. -/
theorem effect_trace_cex :
    (extract_events [("s.json", srcOneEvent), ("t.json", tgtEmptyAbi)]
        "tmp.json" "s.json" "t.json" false).2.2 =
      [.read "s.json", .read "s.json", .read "t.json", .read "t.json",
       .write "t.json", .read "t.json"] ∧
    ((extract_events [("s.json", srcOneEvent), ("t.json", tgtEmptyAbi)]
        "tmp.json" "s.json" "t.json" false).2.2.count (.read "s.json") = 2 ∧
     (extract_events [("s.json", srcOneEvent), ("t.json", tgtEmptyAbi)]
        "tmp.json" "s.json" "t.json" false).2.2.count (.read "t.json") = 3 ∧
     (extract_events [("s.json", srcOneEvent), ("t.json", tgtEmptyAbi)]
        "tmp.json" "s.json" "t.json" false).2.2.count (.write "t.json") = 1) ∧
    (extract_events [("s.json", srcOneEvent), ("t.json", tgtEmptyAbi)]
        "tmp.json" "s.json" "t.json" false).1.success = true :=
  ⟨rfl, ⟨rfl, rfl, rfl⟩, rfl⟩

/-- C9 amended: on a successful fast-path run (source parses whole, so no
temporary copy is written), the exact effect trace is: two reads of the
source (normalizer, then loader), then in merge mode three read-or-creates
of the target (service load, save's re-load, and a post-write summary read)
around exactly one overwrite write — in force mode two target reads (save's
load and the summary read) around the single write. -/
theorem effect_trace_spec (fs : FS)
    (tmp src tgt srcContent tgtContent : String)
    (abiJson : Json) (I E : List Json) (flds : List (String × Json))
    (hsrcL : fsLookup fs src = some srcContent)
    (hsrcP : pyJsonLoads srcContent = some abiJson)
    (hx : extract_events_from_abi abiJson = .ok I)
    (htgtL : fsLookup fs tgt = some tgtContent)
    (htgtP : pyJsonLoads tgtContent = some (.obj flds))
    (hea : objGet flds "event_abi" = some (.arr E))
    (hE : ∀ e ∈ E, sigComputes e = true) (hI : ∀ e ∈ I, sigComputes e = true) :
    (extract_events fs tmp src tgt false).2.2 =
      [.read src, .read src, .read tgt, .read tgt, .write tgt, .read tgt] ∧
    (extract_events fs tmp src tgt true).2.2 =
      [.read src, .read src, .read tgt, .write tgt, .read tgt] := by
  constructor
  · rw [extract_events_merge_run fs tmp src tgt srcContent tgtContent abiJson
      I E flds hsrcL hsrcP hx htgtL htgtP hea hE hI]
  · rw [extract_events_force_run fs tmp src tgt srcContent tgtContent abiJson
      I flds hsrcL hsrcP hx htgtL htgtP]

/-- Witness for C9's amended statement at the concrete one-event scenario. -/
theorem effect_trace_spec_witness :
    (extract_events [("s.json", srcOneEvent), ("t.json", tgtOneEvent)]
        "tmp.json" "s.json" "t.json" false).2.2 =
      [.read "s.json", .read "s.json", .read "t.json", .read "t.json",
       .write "t.json", .read "t.json"] ∧
    (extract_events [("s.json", srcOneEvent), ("t.json", tgtOneEvent)]
        "tmp.json" "s.json" "t.json" true).2.2 =
      [.read "s.json", .read "s.json", .read "t.json",
       .write "t.json", .read "t.json"] :=
  effect_trace_spec [("s.json", srcOneEvent), ("t.json", tgtOneEvent)]
    "tmp.json" "s.json" "t.json" srcOneEvent tgtOneEvent
    (.arr [evA]) [evA] [evA]
    [("_id", .str "t"), ("addresses", .obj []), ("event_abi", .arr [evA])]
    (by rfl) (by rfl) (by rfl) (by rfl) (by rfl) (by rfl)
    (by decide) (by decide)

/-- C10: persisting re-loads the target document from disk, reassigns only
`event_abi`, and rewrites the file with the updated document: the write
holds exactly the old document with `event_abi` replaced, `event_abi` now
holds exactly the given events, and every other field — in particular
`_id` and `addresses` — keeps its old value.  This is the save both force
and merge mode funnel through. -/
theorem save_preserves_other_fields (fs : FS) (tgt content : String)
    (flds : List (String × Json)) (events : List Json)
    (hL : fsLookup fs tgt = some content)
    (hP : pyJsonLoads content = some (.obj flds)) :
    save_events_to_file fs tgt events =
      (.ok (fsInsert fs tgt
         (dumpIndent4 (.obj (objInsert flds "event_abi" (.arr events))))),
       [.read tgt, .write tgt]) ∧
    objGet (objInsert flds "event_abi" (.arr events)) "event_abi" =
      some (.arr events) ∧
    (∀ k, k ≠ "event_abi" →
      objGet (objInsert flds "event_abi" (.arr events)) k = objGet flds k) :=
  ⟨save_events_ok fs tgt content flds events hL hP,
   objGet_objInsert_self flds "event_abi" (.arr events),
   fun k hk => objGet_objInsert_ne flds "event_abi" (.arr events) k hk⟩

/-- Witness for C10 at the concrete one-event target: `_id` and `addresses`
of the rewritten document equal the old ones. -/
theorem save_preserves_other_fields_witness :
    save_events_to_file [("t.json", tgtOneEvent)] "t.json" [evA, evB] =
      (.ok (fsInsert [("t.json", tgtOneEvent)] "t.json"
         (dumpIndent4 (.obj (objInsert
           [("_id", .str "t"), ("addresses", .obj []), ("event_abi", .arr [evA])]
           "event_abi" (.arr [evA, evB]))))),
       [.read "t.json", .write "t.json"]) ∧
    objGet (objInsert
        [("_id", .str "t"), ("addresses", .obj []), ("event_abi", .arr [evA])]
        "event_abi" (.arr [evA, evB])) "event_abi" = some (.arr [evA, evB]) ∧
    objGet (objInsert
        [("_id", .str "t"), ("addresses", .obj []), ("event_abi", .arr [evA])]
        "event_abi" (.arr [evA, evB])) "_id" = some (.str "t") ∧
    objGet (objInsert
        [("_id", .str "t"), ("addresses", .obj []), ("event_abi", .arr [evA])]
        "event_abi" (.arr [evA, evB])) "addresses" = some (.obj []) :=
  ⟨(save_preserves_other_fields [("t.json", tgtOneEvent)] "t.json" tgtOneEvent
      [("_id", .str "t"), ("addresses", .obj []), ("event_abi", .arr [evA])]
      [evA, evB] (by rfl) (by rfl)).1,
   (save_preserves_other_fields [("t.json", tgtOneEvent)] "t.json" tgtOneEvent
      [("_id", .str "t"), ("addresses", .obj []), ("event_abi", .arr [evA])]
      [evA, evB] (by rfl) (by rfl)).2.1,
   by rfl, by rfl⟩
